import Mathlib

/-!
Shallow embedding of the playback synchronization and queue advancement
engine of the habbodj server (src/server/src/socket/timerService.ts,
src/server/src/socket/index.ts, src/server/src/socket/queueHandlers.ts,
and the Room document model).

Conventions of the embedding:
* JavaScript numbers are modelled as rationals; wall-clock instants
  (Date.now values, startedAt anchors) are rationals in milliseconds,
  durations and positions are rationals in seconds.
* The mongoose store is a list of Room documents; findOne by slug is
  List.find?, save replaces the documents with the same slug, deleteOne
  removes the first document with the slug.
* The global Maps roomTimers, roomSyncIntervals and roomPlaybackState are
  association lists keyed by slug; a timer entry records the delay in
  seconds that setTimeout was given (after the 240 s fallback).
* socket.io side effects are collected in an Emission list returned by
  each handler; socket.emit to the requester is Emission.errMsg.
* Each handler takes the current wall clock explicitly where the code
  calls Date.now().
-/

namespace HabboDJ

/-- addedBy subdocument of a queue item (models/Room.ts, IVideoItem). -/
structure AddedBy where
  uid : String
  username : String
deriving DecidableEq, Repr

/-- A queued video (models/Room.ts, IVideoItem). -/
structure VideoItem where
  url : String
  title : String
  duration : ℚ
  addedBy : AddedBy
  upvotes : List String
  downvotes : List String
deriving DecidableEq, Repr

/-- The currently playing video (models/Room.ts, ICurrentVideo);
startedAt is a wall-clock instant in milliseconds. -/
structure CurrentVideo where
  url : String
  title : String
  duration : ℚ
  addedBy : AddedBy
  startedAt : ℚ
deriving DecidableEq, Repr

/-- A Room document (models/Room.ts, IRoom, in the variant carrying the
moderators list used by the moderation handlers). -/
structure Room where
  slug : String
  creatorId : String
  moderators : List String
  isPrivate : Bool
  password : Option String
  currentVideo : Option CurrentVideo
  queue : List VideoItem
deriving DecidableEq, Repr

/-- Per-room ephemeral playback state (timerService.ts lines 11 to 14). -/
structure PlaybackState where
  isPaused : Bool
  pausedAt : ℚ
deriving DecidableEq, Repr

/-- A connected socket: its id, the authenticated userId attached by the
auth middleware, and socket.data.currentRoom. -/
structure Sock where
  sid : String
  userId : String
  currentRoom : Option String
deriving DecidableEq, Repr

/-- The whole server-side state touched by the embedded handlers: the
Room store plus the module-level Maps of timerService.ts and the
connected sockets.  presence models the keys of the roomPresence Map of
roomHandlers.ts (only its deletion matters here). -/
structure ServerState where
  rooms : List Room
  timers : List (String × ℚ)
  syncIntervals : List String
  playback : List (String × PlaybackState)
  sockets : List Sock
  presence : List String
deriving DecidableEq, Repr

/-- Everything a handler sends through socket.io. -/
inductive Emission where
  | mediaUpdate (slug : String) (currentTime : ℚ) (paused : Bool)
  | nowPlaying (slug : String) (video : Option CurrentVideo)
  | queueUpdated (slug : String) (queue : List VideoItem)
  | errMsg (userId : String) (message : String)
  | kicked (sid : String) (message : String)
  | userLeft (slug : String) (userId : String)
  | privacyUpdated (slug : String) (isPrivate : Bool)
  | roomDeleted (slug : String) (message : String)
  | moderatorsUpdated (slug : String) (moderators : List String)
deriving DecidableEq, Repr

/-- Room.findOne by slug. -/
def findRoom (rooms : List Room) (slug : String) : Option Room :=
  rooms.find? (fun r => r.slug == slug)

/-- room.save(): write the (slug-keyed) document back into the store. -/
def saveRoom (rooms : List Room) (slug : String) (r' : Room) : List Room :=
  rooms.map (fun r => if r.slug == slug then r' else r)

/-- Room.deleteOne by slug: removes the first matching document. -/
def deleteFirstRoom : List Room → String → List Room
  | [], _ => []
  | r :: rs, slug => if r.slug == slug then rs else r :: deleteFirstRoom rs slug

/-- Remove a key from an association list (Map.delete). -/
def eraseKey (l : List (String × α)) (k : String) : List (String × α) :=
  l.filter (fun p => p.1 != k)

/-- Map.set: bind a key, shadowing and dropping any previous binding. -/
def setKey (l : List (String × α)) (k : String) (v : α) : List (String × α) :=
  (k, v) :: eraseKey l k

/-- getPlaybackState (timerService.ts lines 18 to 20): stored state or
the default of not paused at 0. -/
def getPlaybackState (st : ServerState) (slug : String) : PlaybackState :=
  (st.playback.lookup slug).getD ⟨false, 0⟩

/-- stopSyncInterval (timerService.ts lines 55 to 61). -/
def stopSyncInterval (st : ServerState) (slug : String) : ServerState :=
  { st with syncIntervals := st.syncIntervals.filter (fun s => s != slug) }

/-- startSyncInterval (timerService.ts lines 31 to 53): replaces any
existing interval task for the room. -/
def startSyncInterval (st : ServerState) (slug : String) : ServerState :=
  let st1 := stopSyncInterval st slug
  { st1 with syncIntervals := slug :: st1.syncIntervals }

/-- clearPlaybackState (timerService.ts lines 22 to 25). -/
def clearPlaybackState (st : ServerState) (slug : String) : ServerState :=
  stopSyncInterval { st with playback := eraseKey st.playback slug } slug

/-- stopVideoTimer (timerService.ts lines 115 to 121). -/
def stopVideoTimer (st : ServerState) (slug : String) : ServerState :=
  { st with timers := eraseKey st.timers slug }

/-- startVideoTimer (timerService.ts lines 99 to 113): cancels any prior
timer, substitutes the 240 s fallback for a nonpositive duration, and
records the scheduled delay. -/
def startVideoTimer (st : ServerState) (slug : String) (durationSeconds : ℚ) :
    ServerState :=
  let st1 := stopVideoTimer st slug
  let d := if durationSeconds ≤ 0 then (240 : ℚ) else durationSeconds
  { st1 with timers := (slug, d) :: st1.timers }

/-- The scheduled delay of the outstanding auto-advance timer of a room,
if one exists. -/
def lookupTimer (st : ServerState) (slug : String) : Option ℚ :=
  st.timers.lookup slug

/-- The body of the 2-second interval of startSyncInterval (timerService.ts
lines 34 to 49): what one reconciliation tick broadcasts at instant now.
The startedAt guard of the source is a truthiness test on a Date object,
which is true whenever currentVideo is present. -/
def syncTick (st : ServerState) (slug : String) (now : ℚ) : List Emission :=
  let state := getPlaybackState st slug
  if state.isPaused then
    [Emission.mediaUpdate slug state.pausedAt true]
  else
    match findRoom st.rooms slug with
    | none => []
    | some room =>
      match room.currentVideo with
      | none => []
      | some cv =>
        [Emission.mediaUpdate slug ((now - cv.startedAt) / 1000) false]

/-- handleHostMediaUpdate (timerService.ts lines 67 to 95). -/
def handleHostMediaUpdate (st : ServerState) (slug : String)
    (currentTime : ℚ) (paused : Bool) (now : ℚ) :
    ServerState × List Emission :=
  match findRoom st.rooms slug with
  | none => (st, [])
  | some room =>
    match room.currentVideo with
    | none => (st, [])
    | some cv =>
      if paused then
        let st1 := { st with playback := setKey st.playback slug ⟨true, currentTime⟩ }
        let st2 := stopVideoTimer st1 slug
        (st2, [Emission.mediaUpdate slug currentTime true])
      else
        let newStartedAt := now - currentTime * 1000
        let room' := { room with currentVideo := some { cv with startedAt := newStartedAt } }
        let st1 := { st with rooms := saveRoom st.rooms slug room' }
        let st2 := { st1 with playback := setKey st1.playback slug ⟨false, 0⟩ }
        let remaining := max (cv.duration - currentTime) 1
        let st3 := stopVideoTimer st2 slug
        let st4 := startVideoTimer st3 slug remaining
        (st4, [Emission.mediaUpdate slug currentTime false])

/-- advanceQueue (timerService.ts lines 123 to 162). -/
def advanceQueue (st : ServerState) (slug : String) (now : ℚ) :
    ServerState × List Emission :=
  match findRoom st.rooms slug with
  | none => (st, [])
  | some room =>
    let st1 := clearPlaybackState st slug
    match room.queue with
    | [] =>
      let room' := { room with currentVideo := none }
      let st2 := { st1 with rooms := saveRoom st1.rooms slug room' }
      (st2, [Emission.nowPlaying slug none, Emission.queueUpdated slug []])
    | nextVideo :: rest =>
      let cv : CurrentVideo :=
        { url := nextVideo.url, title := nextVideo.title,
          duration := nextVideo.duration, addedBy := nextVideo.addedBy,
          startedAt := now }
      let room' := { room with currentVideo := some cv, queue := rest }
      let st2 := { st1 with rooms := saveRoom st1.rooms slug room' }
      let st3 := if nextVideo.duration > 0 then startVideoTimer st2 slug nextVideo.duration else st2
      let st4 := startSyncInterval st3 slug
      (st4, [Emission.nowPlaying slug (some cv), Emission.queueUpdated slug rest])

/-- handleDurationReport (timerService.ts lines 164 to 188). -/
def handleDurationReport (st : ServerState) (slug : String)
    (durationSeconds : ℚ) (now : ℚ) : ServerState :=
  if durationSeconds > 0 then
    let state := getPlaybackState st slug
    if state.isPaused then
      match findRoom st.rooms slug with
      | none => st
      | some room =>
        match room.currentVideo with
        | none => st
        | some cv =>
          let room' := { room with currentVideo := some { cv with duration := durationSeconds } }
          { st with rooms := saveRoom st.rooms slug room' }
    else
      match findRoom st.rooms slug with
      | none => st
      | some room =>
        match room.currentVideo with
        | none => st
        | some cv =>
          let elapsed := (now - cv.startedAt) / 1000
          let remaining := max (durationSeconds - elapsed) 1
          let room' := { room with currentVideo := some { cv with duration := durationSeconds } }
          let st1 := { st with rooms := saveRoom st.rooms slug room' }
          let st2 := startVideoTimer st1 slug remaining
          startSyncInterval st2 slug
  else st

/-- Direction of a vote (queueHandlers.ts, the type field of the vote
payload). -/
inductive VoteDir where
  | up
  | down
deriving DecidableEq, Repr

/-- The vote-toggle core of the vote handler (queueHandlers.ts lines 78
to 91): remove the user from both arrays, then push onto the array
matching the direction. -/
def voteItem (userId : String) (d : VoteDir) (v : VideoItem) : VideoItem :=
  let ups := v.upvotes.filter (fun i => i != userId)
  let downs := v.downvotes.filter (fun i => i != userId)
  match d with
  | VoteDir.up => { v with upvotes := ups ++ [userId], downvotes := downs }
  | VoteDir.down => { v with upvotes := ups, downvotes := downs ++ [userId] }

/-- The vote socket handler (queueHandlers.ts lines 59 to 97); the index
is a JavaScript number, modelled as an integer. -/
def voteHandler (st : ServerState) (currentRoom : Option String)
    (userId : String) (videoIndex : Int) (d : VoteDir) :
    ServerState × List Emission :=
  match currentRoom with
  | none => (st, [Emission.errMsg userId "Not in a room"])
  | some slug =>
    match findRoom st.rooms slug with
    | none => (st, [])
    | some room =>
      if videoIndex < 0 || videoIndex ≥ room.queue.length then
        (st, [Emission.errMsg userId "Invalid video index"])
      else
        match room.queue[videoIndex.toNat]? with
        | none => (st, [])
        | some video =>
          let room' := { room with
            queue := room.queue.set videoIndex.toNat (voteItem userId d video) }
          let st1 := { st with rooms := saveRoom st.rooms slug room' }
          (st1, [Emission.queueUpdated slug room'.queue])

/-- isHostOrMod (socket/index.ts lines 424 to 429). -/
def isHostOrMod (room : Room) (userId : String) : Bool :=
  room.creatorId == userId || room.moderators.contains userId

/-- The value a socket.io payload field can carry, as far as the
mediaUpdate guard distinguishes them: a finite number, NaN (typeof
number but isNaN), a missing field, or a value of some other type. -/
inductive JsVal where
  | num (q : ℚ)
  | nan
  | undef
  | other (s : String)
deriving DecidableEq, Repr

/-- The validity test of the mediaUpdate handler (socket/index.ts line
598): typeof currentTime is number and not NaN. -/
def isFiniteNumber : JsVal → Bool
  | JsVal.num _ => true
  | _ => false

/-- The mediaUpdate socket handler (socket/index.ts lines 586 to 601):
currentRoom and authorization are checked before the currentTime guard;
paused is passed through Boolean. -/
def mediaUpdateHandler (st : ServerState) (currentRoom : Option String)
    (userId : String) (currentTime : JsVal) (paused : Bool) (now : ℚ) :
    ServerState × List Emission :=
  match currentRoom with
  | none => (st, [])
  | some slug =>
    match findRoom st.rooms slug with
    | none => (st, [])
    | some room =>
      if !(isHostOrMod room userId) then (st, [])
      else
        match currentTime with
        | JsVal.num q => handleHostMediaUpdate st slug q paused now
        | _ => (st, [])

/-- The removeUser (kick) socket handler (socket/index.ts lines 478 to
519 in the moderator-aware variant cited by the spec). -/
def removeUserHandler (st : ServerState) (currentRoom : Option String)
    (requesterId : String) (targetUserId : String) :
    ServerState × List Emission :=
  match currentRoom with
  | none => (st, [])
  | some slug =>
    match findRoom st.rooms slug with
    | none => (st, [])
    | some room =>
      let isRequesterHost := room.creatorId == requesterId
      if !(isHostOrMod room requesterId) then
        (st, [Emission.errMsg requesterId "Only the host or moderators can remove users"])
      else if targetUserId == room.creatorId && !isRequesterHost then
        (st, [Emission.errMsg requesterId "Moderators cannot kick the host"])
      else if room.moderators.contains targetUserId && !isRequesterHost then
        (st, [Emission.errMsg requesterId "Only the host can remove moderators"])
      else
        let hit := fun (s : Sock) => s.currentRoom == some slug && s.userId == targetUserId
        let targets := st.sockets.filter hit
        let socks := st.sockets.map (fun s => if hit s then { s with currentRoom := none } else s)
        let st1 := { st with sockets := socks }
        (st1, targets.map (fun s => Emission.kicked s.sid "You have been removed from the room")
              ++ [Emission.userLeft slug targetUserId])

/-- bcrypt.hash with a fixed salt round count, consumed as a black-box
collaborator; only the fact that some hash string is stored matters. -/
def bcryptHash (password : String) : String :=
  String.append "bcrypt10$" password

/-- JavaScript truthiness of the optional password field: present and
nonempty. -/
def pwTruthy : Option String → Bool
  | none => false
  | some p => decide (1 ≤ p.length)

/-- The togglePrivacy socket handler (socket/index.ts lines 522 to 552);
the guard rejects enabling privacy when the password is missing or has
length below 1, which coincides with pwTruthy being false. -/
def togglePrivacyHandler (st : ServerState) (currentRoom : Option String)
    (userId : String) (isPrivate : Bool) (password : Option String) :
    ServerState × List Emission :=
  match currentRoom with
  | none => (st, [])
  | some slug =>
    match findRoom st.rooms slug with
    | none => (st, [])
    | some room =>
      if room.creatorId != userId then
        (st, [Emission.errMsg userId "Only the room host can change room privacy"])
      else if isPrivate && !(pwTruthy password) then
        (st, [Emission.errMsg userId "A password is required to make the room private"])
      else
        let pw' :=
          if isPrivate && pwTruthy password then
            (password.map bcryptHash)
          else if !isPrivate then none
          else room.password
        let room' := { room with isPrivate := isPrivate, password := pw' }
        let st1 := { st with rooms := saveRoom st.rooms slug room' }
        (st1, [Emission.privacyUpdated slug isPrivate])

/-- The deleteRoom socket handler (socket/index.ts lines 555 to 580):
notifies the room, detaches every socket in it, stops the auto-advance
timer, clears presence, and deletes the document.  It does not call
clearPlaybackState and does not stop the sync interval. -/
def deleteRoomHandler (st : ServerState) (currentRoom : Option String)
    (userId : String) : ServerState × List Emission :=
  match currentRoom with
  | none => (st, [])
  | some slug =>
    match findRoom st.rooms slug with
    | none => (st, [])
    | some room =>
      if room.creatorId != userId then
        (st, [Emission.errMsg userId "Only the room host can delete the room"])
      else
        let socks := st.sockets.map (fun s => if s.currentRoom == some slug then { s with currentRoom := none } else s)
        let st1 := { st with sockets := socks }
        let st2 := stopVideoTimer st1 slug
        let st3 := { st2 with presence := st2.presence.filter (fun s => s != slug) }
        let st4 := { st3 with rooms := deleteFirstRoom st3.rooms slug }
        (st4, [Emission.roomDeleted slug "This room has been deleted by the host"])

/-! Helper lemmas about the store and the association-list Maps. -/

theorem lookup_eraseKey_self (l : List (String × α)) (k : String) :
    (eraseKey l k).lookup k = none := by
  induction l with
  | nil => rfl
  | cons p tl ih =>
    rcases eq_or_ne p.1 k with h | h
    · have hstep : eraseKey (p :: tl) k = eraseKey tl k := by
        simp only [eraseKey, List.filter_cons]
        rw [if_neg]
        simp [h]
      rw [hstep]; exact ih
    · have hb : (p.1 != k) = true := by simp [h]
      have hstep : eraseKey (p :: tl) k = p :: eraseKey tl k := by
        simp only [eraseKey, List.filter_cons]
        rw [if_pos hb]
      have hk : (k == p.1) = false := beq_eq_false_iff_ne.mpr (Ne.symm h)
      rcases p with ⟨k1, v1⟩
      rw [hstep, List.lookup_cons]
      simp only at hk
      rw [hk]
      exact ih

theorem lookup_setKey_self (l : List (String × α)) (k : String) (v : α) :
    (setKey l k v).lookup k = some v := by
  simp [setKey, List.lookup]

theorem contains_filter_ne_self (l : List String) (k : String) :
    (l.filter (fun s => s != k)).contains k = false := by
  induction l with
  | nil => rfl
  | cons a tl ih =>
    rcases eq_or_ne a k with h | h
    · have hstep : (a :: tl).filter (fun s => s != k) = tl.filter (fun s => s != k) := by
        simp only [List.filter_cons]
        rw [if_neg]
        simp [h]
      rw [hstep]; exact ih
    · have hb : (a != k) = true := by simp [h]
      have hstep : (a :: tl).filter (fun s => s != k) = a :: tl.filter (fun s => s != k) := by
        simp only [List.filter_cons]
        rw [if_pos hb]
      have hk : (k == a) = false := beq_eq_false_iff_ne.mpr (Ne.symm h)
      rw [hstep, List.contains_cons, hk, ih]
      rfl

theorem findRoom_slug_eq {rooms : List Room} {slug : String} {room : Room}
    (h : findRoom rooms slug = some room) : room.slug = slug := by
  have h2 := List.find?_some h
  simpa using h2

theorem findRoom_saveRoom {rooms : List Room} {slug : String} {room r' : Room}
    (h : findRoom rooms slug = some room) (h' : r'.slug = slug) :
    findRoom (saveRoom rooms slug r') slug = some r' := by
  induction rooms with
  | nil => simp [findRoom] at h
  | cons a tl ih =>
    rcases eq_or_ne a.slug slug with ha | ha
    · have hb : (a.slug == slug) = true := by simpa using ha
      have hstep : saveRoom (a :: tl) slug r' = r' :: saveRoom tl slug r' := by
        simp only [saveRoom, List.map_cons]
        congr 1
        exact if_pos hb
      rw [hstep]
      show List.find? (fun r => r.slug == slug) (r' :: saveRoom tl slug r') = some r'
      rw [List.find?_cons_of_pos _ (by simp [h'])]
    · have hb : (a.slug == slug) = false := by simpa using ha
      have hstep : saveRoom (a :: tl) slug r' = a :: saveRoom tl slug r' := by
        simp only [saveRoom, List.map_cons]
        congr 1
        exact if_neg (by simp [hb])
      have hh : findRoom tl slug = some room := by
        have h2 := h
        simp only [findRoom] at h2
        rw [List.find?_cons_of_neg _ (by simp [hb])] at h2
        exact h2
      rw [hstep]
      show List.find? (fun r => r.slug == slug) (a :: saveRoom tl slug r') = some r'
      rw [List.find?_cons_of_neg _ (by simp [hb])]
      exact ih hh

/-! Claim theorems. -/

theorem vote_not_both_single (u : String) (d : VoteDir) (v : VideoItem) :
    ¬(u ∈ (voteItem u d v).upvotes ∧ u ∈ (voteItem u d v).downvotes) := by
  have hu : (u != u) = false := by simp
  cases d <;> simp [voteItem, List.mem_filter, hu]

/-- C5: for every sequence of vote operations by a single user on one
queue item, after each operation (that is, after any nonempty sequence
of toggles applied to any starting item) the id of the user is never a
member of both the upvote and the downvote set of that item. -/
theorem C5_vote_never_in_both_sets (u : String) (ops : List VoteDir) (v : VideoItem)
    (h : ops ≠ []) :
    ¬(u ∈ (ops.foldl (fun acc d => voteItem u d acc) v).upvotes ∧
      u ∈ (ops.foldl (fun acc d => voteItem u d acc) v).downvotes) := by
  rcases List.eq_nil_or_concat ops with rfl | ⟨L, d, rfl⟩
  · exact absurd rfl h
  · rw [List.concat_eq_append, List.foldl_append]
    exact vote_not_both_single u d _

/-- A sample queue item used by the concrete witnesses. -/
def itemW : VideoItem :=
  { url := "https://youtu.be/w", title := "W", duration := 30,
    addedBy := ⟨"a1", "alice"⟩, upvotes := ["x"], downvotes := ["u1"] }

theorem C5_witness :
    ¬("u1" ∈ (([VoteDir.up, VoteDir.down]).foldl
        (fun acc d => voteItem "u1" d acc) itemW).upvotes ∧
      "u1" ∈ (([VoteDir.up, VoteDir.down]).foldl
        (fun acc d => voteItem "u1" d acc) itemW).downvotes) :=
  C5_vote_never_in_both_sets "u1" [VoteDir.up, VoteDir.down] itemW (by simp)

/-- C6: casting the same vote direction twice in succession leaves both
vote lists (hence their memberships) identical to the state after the
first call. -/
theorem C6_vote_same_direction_idempotent (u : String) (d : VoteDir) (v : VideoItem) :
    voteItem u d (voteItem u d v) = voteItem u d v := by
  have hu : (u != u) = false := by simp
  cases d <;>
    simp [voteItem, List.filter_append, List.filter_filter, List.filter_cons, hu]

/-- C10: an inbound mediaUpdate whose currentTime is missing, of a
non-number type, or NaN causes no state mutation and no broadcast, for
every sender including Controllers: the handler returns before touching
the timeline or the timers. -/
theorem C10_mediaUpdate_invalid_currentTime
    (st : ServerState) (currentRoom : Option String) (userId : String)
    (ct : JsVal) (paused : Bool) (now : ℚ)
    (hct : isFiniteNumber ct = false) :
    mediaUpdateHandler st currentRoom userId ct paused now = (st, []) := by
  cases currentRoom with
  | none => rfl
  | some slug =>
    simp only [mediaUpdateHandler]
    cases hr : findRoom st.rooms slug with
    | none => rfl
    | some room =>
      by_cases hmod : isHostOrMod room userId
      · cases ct with
        | num q => exact absurd hct (by simp [isFiniteNumber])
        | nan => simp [hmod]
        | undef => simp [hmod]
        | other s => simp [hmod]
      · simp [hmod]

/-- The empty server state, used by concrete witnesses. -/
def stEmpty : ServerState :=
  { rooms := [], timers := [], syncIntervals := [], playback := [],
    sockets := [], presence := [] }

theorem C10_witness :
    mediaUpdateHandler stEmpty (some "r") "u1" JsVal.nan true 0 = (stEmpty, []) :=
  C10_mediaUpdate_invalid_currentTime stEmpty (some "r") "u1" JsVal.nan true 0 rfl

/-- C9: when the Owner enables privacy without supplying a (nonempty)
password, the request is rejected with an error message to the
requester and the server state, so in particular the privacy flag and
the stored password hash of the room, is unchanged. -/
theorem C9_private_requires_password
    (st : ServerState) (slug uid : String) (room : Room) (pwd : Option String)
    (hroom : findRoom st.rooms slug = some room)
    (howner : room.creatorId = uid)
    (hpwd : pwTruthy pwd = false) :
    togglePrivacyHandler st (some slug) uid true pwd =
      (st, [Emission.errMsg uid "A password is required to make the room private"]) := by
  simp only [togglePrivacyHandler, hroom]
  have h1 : (room.creatorId != uid) = false := by simp [howner]
  simp [h1, hpwd]

/-- A room owned by o1 with one moderator m1, used by concrete witnesses. -/
def roomW : Room :=
  { slug := "r", creatorId := "o1", moderators := ["m1"], isPrivate := false,
    password := none, currentVideo := none, queue := [itemW] }

/-- A small populated server state used by concrete witnesses. -/
def stW : ServerState :=
  { rooms := [roomW], timers := [], syncIntervals := [], playback := [],
    sockets := [⟨"s1", "m1", some "r"⟩, ⟨"s2", "o1", some "r"⟩], presence := ["r"] }

theorem C9_witness :
    togglePrivacyHandler stW (some "r") "o1" true none =
      (stW, [Emission.errMsg "o1" "A password is required to make the room private"]) :=
  C9_private_requires_password stW "r" "o1" roomW none rfl rfl rfl

theorem advanceQueue_empty_spec
    (st : ServerState) (slug : String) (room : Room) (now : ℚ)
    (hroom : findRoom st.rooms slug = some room)
    (hq : room.queue = [])
    (ht : lookupTimer st slug = none) :
    findRoom (advanceQueue st slug now).1.rooms slug = some { room with currentVideo := none }
    ∧ lookupTimer (advanceQueue st slug now).1 slug = none
    ∧ (advanceQueue st slug now).2 =
        [Emission.nowPlaying slug none, Emission.queueUpdated slug []] := by
  have hslug0 : room.slug = slug := findRoom_slug_eq hroom
  refine ⟨?_, ?_, ?_⟩
  · simp only [advanceQueue, hroom, hq]
    exact findRoom_saveRoom hroom
      (show ({ room with currentVideo := none } : Room).slug = slug from hslug0)
  · simp only [advanceQueue, hroom, hq]
    exact ht
  · simp [advanceQueue, hroom, hq]

/-- C7: advancing a room with an empty queue is idempotent: the call and
any repeated call set currentVideo to null, emit only the now-playing
and queue-updated notifications (no error), and leave no auto-advance
timer scheduled. -/
theorem C7_advance_empty_queue_idempotent
    (st : ServerState) (slug : String) (room : Room) (now now2 : ℚ)
    (hroom : findRoom st.rooms slug = some room)
    (hq : room.queue = [])
    (ht : lookupTimer st slug = none) :
    (findRoom (advanceQueue st slug now).1.rooms slug = some { room with currentVideo := none }
     ∧ lookupTimer (advanceQueue st slug now).1 slug = none
     ∧ (advanceQueue st slug now).2 =
         [Emission.nowPlaying slug none, Emission.queueUpdated slug []])
    ∧ (findRoom (advanceQueue (advanceQueue st slug now).1 slug now2).1.rooms slug =
         some { room with currentVideo := none }
     ∧ lookupTimer (advanceQueue (advanceQueue st slug now).1 slug now2).1 slug = none
     ∧ (advanceQueue (advanceQueue st slug now).1 slug now2).2 =
         [Emission.nowPlaying slug none, Emission.queueUpdated slug []]) := by
  obtain ⟨h1, h2, h3⟩ := advanceQueue_empty_spec st slug room now hroom hq ht
  refine ⟨⟨h1, h2, h3⟩, ?_⟩
  obtain ⟨g1, g2, g3⟩ :=
    advanceQueue_empty_spec (advanceQueue st slug now).1 slug
      { room with currentVideo := none } now2 h1 hq h2
  exact ⟨g1, g2, g3⟩

/-- A room with an empty queue and a current video, used by witnesses. -/
def roomE : Room :=
  { slug := "e", creatorId := "o1", moderators := [], isPrivate := false,
    password := none,
    currentVideo := some ⟨"https://youtu.be/e", "E", 30, ⟨"a1", "alice"⟩, 0⟩,
    queue := [] }

def stE : ServerState :=
  { rooms := [roomE], timers := [], syncIntervals := ["e"],
    playback := [("e", ⟨false, 0⟩)], sockets := [], presence := [] }

theorem C7_witness :
    (findRoom (advanceQueue stE "e" 1000).1.rooms "e" = some { roomE with currentVideo := none }
     ∧ lookupTimer (advanceQueue stE "e" 1000).1 "e" = none
     ∧ (advanceQueue stE "e" 1000).2 =
         [Emission.nowPlaying "e" none, Emission.queueUpdated "e" []])
    ∧ (findRoom (advanceQueue (advanceQueue stE "e" 1000).1 "e" 2000).1.rooms "e" =
         some { roomE with currentVideo := none }
     ∧ lookupTimer (advanceQueue (advanceQueue stE "e" 1000).1 "e" 2000).1 "e" = none
     ∧ (advanceQueue (advanceQueue stE "e" 1000).1 "e" 2000).2 =
         [Emission.nowPlaying "e" none, Emission.queueUpdated "e" []]) :=
  C7_advance_empty_queue_idempotent stE "e" roomE 1000 2000 rfl rfl rfl

/-- C8: a Moderator may not kick the Owner or another Moderator: such a
request is answered with an error to the requester only and leaves the
state untouched, while the Owner kicking a Moderator succeeds, detaches
the sockets of the target from the room and emits the kick
notifications. -/
theorem C8_kick_authorization
    (st : ServerState) (slug m : String) (room : Room)
    (hroom : findRoom st.rooms slug = some room)
    (hm : room.moderators.contains m = true)
    (hmNotOwner : room.creatorId ≠ m) :
    (∀ target, target = room.creatorId →
      removeUserHandler st (some slug) m target =
        (st, [Emission.errMsg m "Moderators cannot kick the host"]))
    ∧ (∀ target, room.moderators.contains target = true → target ≠ room.creatorId →
      removeUserHandler st (some slug) m target =
        (st, [Emission.errMsg m "Only the host can remove moderators"]))
    ∧ (∀ target, room.moderators.contains target = true →
      removeUserHandler st (some slug) room.creatorId target =
        ({ st with sockets := st.sockets.map (fun s =>
             if s.currentRoom == some slug && s.userId == target then
               { s with currentRoom := none } else s) },
         (st.sockets.filter (fun s =>
             s.currentRoom == some slug && s.userId == target)).map
           (fun s => Emission.kicked s.sid "You have been removed from the room")
           ++ [Emission.userLeft slug target])) := by
  have hhost : (room.creatorId == m) = false := beq_eq_false_iff_ne.mpr hmNotOwner
  have hm' : m ∈ room.moderators := by simpa using hm
  have hself : (room.creatorId == room.creatorId) = true := by simp
  refine ⟨?_, ?_, ?_⟩
  · intro target htc
    simp [removeUserHandler, hroom, isHostOrMod, hhost, hm', htc, Ne.symm hmNotOwner]
  · intro target htmod htc
    have htmod' : target ∈ room.moderators := by simpa using htmod
    simp [removeUserHandler, hroom, isHostOrMod, hhost, hm', htc, htmod',
      Ne.symm hmNotOwner]
  · intro target htmod
    simp [removeUserHandler, hroom, isHostOrMod, hself]

theorem C8_witness :
    (removeUserHandler stW (some "r") "m1" "o1" =
      (stW, [Emission.errMsg "m1" "Moderators cannot kick the host"]))
    ∧ (removeUserHandler stW (some "r") "o1" "m1" =
      ({ stW with sockets := [⟨"s1", "m1", none⟩, ⟨"s2", "o1", some "r"⟩] },
       [Emission.kicked "s1" "You have been removed from the room",
        Emission.userLeft "r" "m1"])) := by
  obtain ⟨h1, _h2, h3⟩ := C8_kick_authorization stW "r" "m1" roomW rfl rfl (by decide)
  refine ⟨h1 "o1" rfl, ?_⟩
  have := h3 "m1" rfl
  simpa [stW] using this

/-- C1: an inbound mediaUpdate from a sender who is neither the creator
nor a moderator of the room leaves the whole server state unchanged and
emits nothing; an inbound mediaUpdate with a numeric currentTime from a
Controller of a room that has a current video updates the timeline
(pause state, anchor and timer) and rebroadcasts the identical message
to the room. -/
theorem C1_mediaUpdate_controller_only
    (st : ServerState) (slug uid : String) (room : Room) (p : Bool) (now : ℚ)
    (hroom : findRoom st.rooms slug = some room) :
    (isHostOrMod room uid = false →
      ∀ ct, mediaUpdateHandler st (some slug) uid ct p now = (st, []))
    ∧ (isHostOrMod room uid = true →
      ∀ (q : ℚ) (cv : CurrentVideo), room.currentVideo = some cv →
        (mediaUpdateHandler st (some slug) uid (JsVal.num q) p now).2 =
          [Emission.mediaUpdate slug q p]
        ∧ getPlaybackState (mediaUpdateHandler st (some slug) uid (JsVal.num q) p now).1 slug =
            (if p then ⟨true, q⟩ else ⟨false, 0⟩)
        ∧ (p = true →
            lookupTimer (mediaUpdateHandler st (some slug) uid (JsVal.num q) p now).1 slug = none)
        ∧ (p = false →
            findRoom (mediaUpdateHandler st (some slug) uid (JsVal.num q) p now).1.rooms slug =
              some { room with currentVideo := some { cv with startedAt := now - q * 1000 } }
            ∧ lookupTimer (mediaUpdateHandler st (some slug) uid (JsVal.num q) p now).1 slug =
              some (max (cv.duration - q) 1))) := by
  have hslug : room.slug = slug := findRoom_slug_eq hroom
  constructor
  · intro hmod ct
    simp [mediaUpdateHandler, hroom, hmod]
  · intro hmod q cv hcv
    have hred : mediaUpdateHandler st (some slug) uid (JsVal.num q) p now =
        handleHostMediaUpdate st slug q p now := by
      simp [mediaUpdateHandler, hroom, hmod]
    rw [hred]
    cases p with
    | true =>
      have hpause : handleHostMediaUpdate st slug q true now =
          (stopVideoTimer { st with playback := setKey st.playback slug ⟨true, q⟩ } slug,
           [Emission.mediaUpdate slug q true]) := by
        simp [handleHostMediaUpdate, hroom, hcv]
      rw [hpause]
      refine ⟨rfl, ?_, ?_, ?_⟩
      · simp [getPlaybackState, stopVideoTimer, lookup_setKey_self]
      · intro _
        exact lookup_eraseKey_self st.timers slug
      · intro hfalse
        exact absurd hfalse (by simp)
    | false =>
      have hrem : ¬(max (cv.duration - q) 1 ≤ (0 : ℚ)) := by
        have h1 : (0 : ℚ) < 1 := by norm_num
        have h2 : (1 : ℚ) ≤ max (cv.duration - q) 1 := le_max_right _ _
        exact not_le.mpr (lt_of_lt_of_le h1 h2)
      have hplay : handleHostMediaUpdate st slug q false now =
          ({ st with
              rooms := saveRoom st.rooms slug
                { room with currentVideo := some { cv with startedAt := now - q * 1000 } },
              playback := setKey st.playback slug ⟨false, 0⟩,
              timers := (slug, max (cv.duration - q) 1) :: eraseKey (eraseKey st.timers slug) slug },
           [Emission.mediaUpdate slug q false]) := by
        simp only [handleHostMediaUpdate, hroom, hcv]
        simp [startVideoTimer, stopVideoTimer, if_neg hrem]
      rw [hplay]
      refine ⟨rfl, ?_, ?_, ?_⟩
      · simp [getPlaybackState, lookup_setKey_self]
      · intro htrue
        exact absurd htrue (by simp)
      · intro _
        refine ⟨?_, ?_⟩
        · exact findRoom_saveRoom hroom
            (show ({ room with currentVideo := some { cv with startedAt := now - q * 1000 } } : Room).slug = slug from hslug)
        · simp [lookupTimer, List.lookup_cons]

/-- A playing current video used by the C1 witness state. -/
def cvP : CurrentVideo :=
  { url := "https://youtu.be/p", title := "P", duration := 90,
    addedBy := ⟨"a1", "alice"⟩, startedAt := 2000 }

/-- A room with moderator m1 and a current video, used by witnesses. -/
def roomP : Room :=
  { slug := "p", creatorId := "o1", moderators := ["m1"], isPrivate := false,
    password := none, currentVideo := some cvP, queue := [] }

def stP : ServerState :=
  { rooms := [roomP], timers := [("p", 90)], syncIntervals := ["p"],
    playback := [], sockets := [], presence := ["p"] }

theorem C1_witness :
    (mediaUpdateHandler stP (some "p") "z9" (JsVal.num 7) true 5000 = (stP, []))
    ∧ (mediaUpdateHandler stP (some "p") "m1" (JsVal.num 7) true 5000).2 =
        [Emission.mediaUpdate "p" 7 true] := by
  have h1 := C1_mediaUpdate_controller_only stP "p" "z9" roomP true 5000 rfl
  have h2 := C1_mediaUpdate_controller_only stP "p" "m1" roomP true 5000 rfl
  exact ⟨h1.1 rfl (JsVal.num 7), (h2.2 rfl 7 cvP rfl).1⟩

theorem advanceQueue_cons_spec
    (st : ServerState) (slug : String) (room : Room) (b : VideoItem)
    (rest : List VideoItem) (now : ℚ)
    (hroom : findRoom st.rooms slug = some room)
    (hq : room.queue = b :: rest) :
    (advanceQueue st slug now).1.rooms = saveRoom st.rooms slug
        { room with currentVideo := some ⟨b.url, b.title, b.duration, b.addedBy, now⟩,
                    queue := rest }
    ∧ (advanceQueue st slug now).1.playback = eraseKey st.playback slug
    ∧ (advanceQueue st slug now).1.timers =
        (if b.duration > 0 then (slug, b.duration) :: eraseKey st.timers slug else st.timers)
    ∧ (advanceQueue st slug now).2 =
        [Emission.nowPlaying slug (some ⟨b.url, b.title, b.duration, b.addedBy, now⟩),
         Emission.queueUpdated slug rest] := by
  by_cases hb : b.duration > 0
  · refine ⟨?_, ?_, ?_, ?_⟩ <;>
      simp [advanceQueue, hroom, hq, hb, clearPlaybackState, stopSyncInterval,
        startSyncInterval, startVideoTimer, stopVideoTimer, not_le.mp, if_neg (not_le.mpr hb)]
  · refine ⟨?_, ?_, ?_, ?_⟩ <;>
      simp [advanceQueue, hroom, hq, hb, clearPlaybackState, stopSyncInterval,
        startSyncInterval, startVideoTimer, stopVideoTimer]

/-- The duration-0 video of the C2 scenario. -/
def videoB : VideoItem :=
  { url := "https://youtu.be/b", title := "B", duration := 0,
    addedBy := ⟨"a1", "alice"⟩, upvotes := [], downvotes := [] }

/-- An idle room whose queue holds only videoB. -/
def roomB : Room :=
  { slug := "b", creatorId := "o1", moderators := [], isPrivate := false,
    password := none, currentVideo := none, queue := [videoB] }

def stB : ServerState :=
  { rooms := [roomB], timers := [], syncIntervals := [], playback := [],
    sockets := [], presence := [] }

/-- C2 counterexample: advancing the idle room onto the sole
duration-0 item makes it the current video but schedules NO
auto-advance timer at all, refuting the claimed running 240 s timer. -/
theorem C2_counterexample :
    (findRoom (advanceQueue stB "b" 1000).1.rooms "b").map (fun r => r.currentVideo) =
      some (some ⟨"https://youtu.be/b", "B", 0, ⟨"a1", "alice"⟩, 1000⟩)
    ∧ lookupTimer (advanceQueue stB "b" 1000).1 "b" = none := by
  constructor <;> rfl

/-- C2 as amended: after the duration-0 sole item becomes current via
advance, no auto-advance timer is scheduled (advance starts one only
for a known positive duration, so the 240 s fallback is never reached);
a reportDuration(50) arriving 5 seconds after the start anchors on the
elapsed 5 s and schedules a timer for the remaining 45 s. -/
theorem C2_unknown_duration_then_report
    (st : ServerState) (slug : String) (room : Room) (b : VideoItem) (t0 : ℚ)
    (hroom : findRoom st.rooms slug = some room)
    (hq : room.queue = [b])
    (hd : b.duration = 0)
    (ht : lookupTimer st slug = none) :
    lookupTimer (advanceQueue st slug t0).1 slug = none
    ∧ lookupTimer
        (handleDurationReport (advanceQueue st slug t0).1 slug 50 (t0 + 5000)) slug =
        some 45 := by
  have hslug : room.slug = slug := findRoom_slug_eq hroom
  obtain ⟨hr, hp, htm, _he⟩ := advanceQueue_cons_spec st slug room b [] t0 hroom hq
  have hd0 : ¬(b.duration > 0) := by rw [hd]; norm_num
  have htimer1 : lookupTimer (advanceQueue st slug t0).1 slug = none := by
    simp only [lookupTimer, htm, if_neg hd0]
    exact ht
  refine ⟨htimer1, ?_⟩
  have h50 : (50 : ℚ) > 0 := by norm_num
  have hgps : getPlaybackState (advanceQueue st slug t0).1 slug = ⟨false, 0⟩ := by
    simp [getPlaybackState, hp, lookup_eraseKey_self]
  have hfr : findRoom (advanceQueue st slug t0).1.rooms slug =
      some { room with currentVideo := some ⟨b.url, b.title, b.duration, b.addedBy, t0⟩,
                       queue := [] } := by
    rw [hr]
    exact findRoom_saveRoom hroom hslug
  have helapsed : (t0 + 5000 - t0) / 1000 = (5 : ℚ) := by ring
  have hrem : max ((50 : ℚ) - (t0 + 5000 - t0) / 1000) 1 = 45 := by
    rw [helapsed]; norm_num
  have h45 : ¬((45 : ℚ) ≤ 0) := by norm_num
  simp only [handleDurationReport, if_pos h50, hgps, hfr]
  simp only [startVideoTimer, stopVideoTimer, startSyncInterval, stopSyncInterval,
    lookupTimer, hrem, if_neg h45]
  simp [List.lookup_cons]

theorem C2_witness :
    lookupTimer (advanceQueue stB "b" 1000).1 "b" = none
    ∧ lookupTimer (handleDurationReport (advanceQueue stB "b" 1000).1 "b" 50 (1000 + 5000)) "b" =
        some 45 :=
  C2_unknown_duration_then_report stB "b" roomB videoB 1000 rfl rfl rfl rfl

/-- The current video of the C3 scenario: duration known to be 10 s,
started at wall clock 0. -/
def cvC3 : CurrentVideo :=
  { url := "https://youtu.be/c", title := "C", duration := 10,
    addedBy := ⟨"a1", "alice"⟩, startedAt := 0 }

def roomC3 : Room :=
  { slug := "c", creatorId := "o1", moderators := [], isPrivate := false,
    password := none, currentVideo := some cvC3, queue := [] }

def stC3 : ServerState :=
  { rooms := [roomC3], timers := [], syncIntervals := ["c"], playback := [],
    sockets := [], presence := [] }

/-- C3 counterexample: 20 seconds after the anchor of a playing video
whose known duration is 10, the reconciliation tick broadcasts position
20, which lies outside [0, 10]: the broadcast position is not clamped. -/
theorem C3_counterexample :
    roomC3.currentVideo = some cvC3
    ∧ cvC3.duration = 10
    ∧ syncTick stC3 "c" 20000 = [Emission.mediaUpdate "c" 20 false]
    ∧ ¬((20 : ℚ) ≤ 10) := by
  refine ⟨rfl, rfl, ?_, by norm_num⟩
  have h : ((20000 : ℚ) - cvC3.startedAt) / 1000 = 20 := by
    simp only [cvC3]
    norm_num
  simp [syncTick, getPlaybackState, stC3, roomC3, findRoom, h]

/-- C3 as amended: the position the reconciliation tick broadcasts is
not clamped: while playing it is exactly (now - startedAt)/1000, which
can lie outside [0, duration], and while paused it is exactly pausedAt. -/
theorem C3_sync_position_exact
    (st : ServerState) (slug : String) (room : Room) (cv : CurrentVideo) (now : ℚ)
    (hroom : findRoom st.rooms slug = some room)
    (hcv : room.currentVideo = some cv) :
    ((getPlaybackState st slug).isPaused = false →
      syncTick st slug now = [Emission.mediaUpdate slug ((now - cv.startedAt) / 1000) false])
    ∧ ((getPlaybackState st slug).isPaused = true →
      syncTick st slug now =
        [Emission.mediaUpdate slug (getPlaybackState st slug).pausedAt true]) := by
  constructor <;> intro h <;> simp [syncTick, h, hroom, hcv]

theorem C3_witness :
    syncTick stC3 "c" 20000 = [Emission.mediaUpdate "c" ((20000 - 0) / 1000) false] :=
  (C3_sync_position_exact stC3 "c" roomC3 cvC3 20000 rfl rfl).1 rfl

/-- The C4 failing input: a room being deleted by its owner while a
paused playback state, a pending auto-advance timer and a running sync
interval exist for it. -/
def stC4 : ServerState :=
  { rooms := [{ slug := "d", creatorId := "o1", moderators := [],
                isPrivate := false, password := none,
                currentVideo := some ⟨"https://youtu.be/d", "D", 60, ⟨"a1", "alice"⟩, 0⟩,
                queue := [] }],
    timers := [("d", 60)], syncIntervals := ["d"], playback := [("d", ⟨true, 3⟩)],
    sockets := [⟨"s1", "o1", some "d"⟩], presence := ["d"] }

/-- C4: deleting the room cancels the auto-advance timer and removes
the document, but the PlaybackState entry of the room is still present
and its periodic sync interval is still running afterwards; the code
discards only part of the ephemeral state. -/
theorem C4_deleteRoom_leaks_ephemeral_state :
    lookupTimer (deleteRoomHandler stC4 (some "d") "o1").1 "d" = none
    ∧ findRoom (deleteRoomHandler stC4 (some "d") "o1").1.rooms "d" = none
    ∧ (deleteRoomHandler stC4 (some "d") "o1").1.playback.lookup "d" = some ⟨true, 3⟩
    ∧ (deleteRoomHandler stC4 (some "d") "o1").1.syncIntervals.contains "d" = true := by
  refine ⟨?_, ?_, ?_, ?_⟩ <;> decide

end HabboDJ
